import Mathlib

/-!
Verification development for the `see` repository: a Python object inspector
that renders, for a given object, the list of capability symbols it supports
plus one display token per non-internal attribute, optionally filtered by a
shell-style wildcard pattern and by a regular expression, wrapped in a
tuple-like result whose only override is its display representation.

The repository ships two generations of the implementation:

* `see.py` at the repository root (the legacy self-contained module), embedded
  below in namespace `SeePy`;
* `see/inspector.py` (the package module), embedded in namespace `Inspector`.
  The helper modules it imports (`see/output.py`, `see/term.py`,
  `see/tools.py`, `see/features.py`, `see/exceptions.py`) are not part of the
  sources, so the definitions taken from them are modelled from the spec and
  are marked as such in their doc comments.

Modelling conventions:

* A Python runtime value reached through attribute resolution is abstracted to
  the single observation the code makes about it: whether it is callable
  (`hasattr(value, '__call__')`).
* A Python object is its `dir()` listing, its attribute-resolution function
  (which can raise), and the outcome of reading its `__doc__` attribute.
* Exceptions are modelled by `PyErr` with the three equivalence classes the
  code distinguishes: `AttributeError`, `IndexError`, and everything else
  (`except Exception` style handlers catch all three).
* The standard-library pattern matchers are passed in as functions: a compiled
  shell-style pattern is a predicate on whole strings (`fnmatch.fnmatch`), a
  compiled regular expression is its `search` method returning an optional
  match position, and `textwrap.fill` is an abstract wrapping function taking
  the text, the width and the indent.
-/

/-- Exception classes distinguished by the handlers in the code: every
`except` clause in the repository names `AttributeError`, `IndexError`, or
catches all exceptions. -/
inductive PyErr where
  | attributeError
  | indexError
  | otherError
deriving DecidableEq, Repr

deriving instance DecidableEq for Except

/-- The observation the code makes of a resolved attribute value:
`hasattr(value, '__call__')`. -/
structure PyValue where
  callable : Bool
deriving DecidableEq, Repr

/-- A Python object as observed by the inspector: its `dir()` listing, its
attribute resolution (`getattr`, which can raise), and the outcome of reading
`obj.__doc__` (`.ok none` models a `__doc__` that is `None`, `.ok (some s)` a
string docstring, `.error e` an exception raised by the access). -/
structure PyObject where
  attrs : List String
  getattr : String → Except PyErr PyValue
  docString : Except PyErr (Option String)

/-- `a.startswith('_')`: the single-leading-marker rule used by both
implementations to exclude internal names (expressed as a first-character
test, which is what a one-character `startswith` check is). -/
def startsWithUnderscore (a : String) : Bool :=
  match a.data with
  | [] => false
  | c :: _ => c == '_'

namespace SeePy

/-! Embedding of the legacy root module `see.py`. -/

/-- `sys.version_info >= (3, 0)`: the model fixes a Python 3 runtime. -/
def PY_300 : Bool := true

/-- `sys.version_info >= (3, 0, 1)`: the model fixes a Python 3 runtime. -/
def PY_301 : Bool := true

/-- The literal tuple from which `SYMBOLS` is built.  A first component of
`none` models a Python first component that is falsy (`False` or `''`), which
the `filter(lambda x: x[0], ...)` wrapper drops. -/
def SYMBOLS_ALL : List (Option String × String) := [
  (some "__call__", "()"),
  (some "__getattr__", ".*"),
  (some "__getitem__", "[]"),
  (some "__setitem__", "[]"),
  (some "__delitem__", "[]"),
  (some "__enter__", "with"),
  (some "__exit__", "with"),
  (some "__contains__", "in"),
  (some "__add__", "+"),
  (some "__radd__", "+"),
  (some "__iadd__", "+="),
  (some "__sub__", "-"),
  (some "__rsub__", "-"),
  (some "__isub__", "-="),
  (some "__mul__", "*"),
  (some "__rmul__", "*"),
  (some "__imul__", "*="),
  ((if PY_300 then none else some "__div__"), "/"),
  ((if PY_301 then none else some "__rdiv__"), "/"),
  (some "__truediv__", "/"),
  (some "__rtruediv__", "/"),
  (some "__floordiv__", "//"),
  (some "__rfloordiv__", "//"),
  ((if PY_300 then none else some "__idiv__"), "/="),
  (some "__itruediv__", "/="),
  (some "__ifloordiv__", "//="),
  (some "__mod__", "%"),
  (some "__rmod__", "%"),
  (some "__divmod__", "%"),
  (some "__imod__", "%="),
  (some "__pow__", "**"),
  (some "__rpow__", "**"),
  (some "__ipow__", "**="),
  (some "__lshift__", "<<"),
  (some "__rlshift__", "<<"),
  (some "__ilshift__", "<<="),
  (some "__rshift__", ">>"),
  (some "__rrshift__", ">>"),
  (some "__irshift__", ">>="),
  (some "__and__", "&"),
  (some "__rand__", "&"),
  (some "__iand__", "&="),
  (some "__xor__", "^"),
  (some "__rxor__", "^"),
  (some "__ixor__", "^="),
  (some "__or__", "|"),
  (some "__ror__", "|"),
  (some "__ior__", "|="),
  (some "__pos__", "+obj"),
  (some "__neg__", "-obj"),
  (some "__invert__", "~"),
  (some "__lt__", "<"),
  ((if PY_301 then none else some "__cmp__"), "<"),
  (some "__le__", "<="),
  ((if PY_301 then none else some "__cmp__"), "<="),
  (some "__eq__", "=="),
  ((if PY_301 then none else some "__cmp__"), "=="),
  (some "__ne__", "!="),
  ((if PY_301 then none else some "__cmp__"), "!="),
  (some "__gt__", ">"),
  ((if PY_301 then none else some "__cmp__"), ">"),
  (some "__ge__", ">="),
  ((if PY_301 then none else some "__cmp__"), ">="),
  (some "__abs__", "abs()"),
  ((if PY_300 then some "__bool__" else some "__nonzero__"), "bool()"),
  (some "__complex__", "complex()"),
  ((if PY_300 then some "__dir__" else none), "dir()"),
  (some "__divmod__", "divmod()"),
  (some "__rdivmod__", "divmod()"),
  (some "__float__", "float()"),
  (some "__hash__", "hash()"),
  (some "__doc__", "help()"),
  ((if PY_300 then some "__index__" else some "__hex__"), "hex()"),
  (some "__int__", "int()"),
  (some "__iter__", "iter()"),
  (some "__len__", "len()"),
  ((if PY_300 then none else some "__long__"), "long()"),
  ((if PY_300 then some "__index__" else some "__oct__"), "oct()"),
  (some "__repr__", "repr()"),
  (some "__reversed__", "reversed()"),
  ((if PY_300 then some "__round__" else none), "round()"),
  (some "__str__", "str()"),
  ((if PY_300 then some "__unicode__" else none), "unicode()")]

/-- `SYMBOLS = tuple(filter(lambda x: x[0], (...)))`: the registry of
(probe, symbol) pairs after version-conditional filtering. -/
def SYMBOLS : List (String × String) :=
  SYMBOLS_ALL.filterMap (fun vs => vs.1.map (fun v => (v, vs.2)))

/-- `regex_filter(names, pat)`: compile `pat` once, then keep the names on
which `pat.search(name)` finds a match.  The compiled pattern is modelled by
its `search` method: a function from a string to an optional match position. -/
def regex_filter (names : List String) (search : String → Option Nat) : List String :=
  names.filter (fun name => (search name).isSome)

/-- `fn_filter(names, pat)`: keep the names for which
`fnmatch.fnmatch(name, pat)` holds; the shell-style pattern is modelled by the
whole-string predicate `fnmatch.fnmatch(·, pat)`. -/
def fn_filter (names : List String) (fnmatchPat : String → Bool) : List String :=
  names.filter fnmatchPat

/-- The two optional filter applications at the end of `see`: the wildcard
filter (`pattern`) first, then the regex filter (`r`). -/
def applyFilters (acts : List String)
    (pattern : Option (String → Bool)) (r : Option (String → Option Nat)) : List String :=
  let a1 := match pattern with
    | some p => fn_filter acts p
    | none => acts
  match r with
  | some search => regex_filter a1 search
  | none => a1

/-- Models `obj.__doc__.strip()[0]` inside `try ... except (AttributeError,
IndexError)`: `.ok true` means the probe succeeded (a docstring with a
non-whitespace character), `.ok false` means an `AttributeError` or
`IndexError` was raised and caught (absent `__doc__`, a `None` docstring whose
`.strip` does not exist, or an empty stripped string whose `[0]` is out of
range), `.error e` means an exception of another class propagates out of
`see`. -/
def docCheck : Except PyErr (Option String) → Except PyErr Bool
  | .error .attributeError => .ok false
  | .error .indexError => .ok false
  | .error .otherError => .error .otherError
  | .ok none => .ok false
  | .ok (some s) => .ok (s.toList.any (fun c => !c.isWhitespace))

/-- `lambda f: hasattr(f, '__call__') and '()' or ''`. -/
def funcSuffix (v : PyValue) : String := if v.callable then "()" else ""

/-- The condition under which a registry entry with probe `v` contributes its
symbol during the capability pass of `see.py`: the probe is listed by
`dir(obj)`, and — for the documentation probe only — the docstring check
succeeds. -/
def entryFires (o : PyObject) (v : String) : Prop :=
  v ∈ o.attrs ∧ (v = "__doc__" → docCheck o.docString = .ok true)

/-- The capability-detection loop of `see.py`:

    for var, symbol in SYMBOLS:
        if var not in attrs or symbol in actions:
            continue
        elif var == '__doc__':
            try:
                obj.__doc__.strip()[0]
            except (AttributeError, IndexError):
                continue
        actions.append(symbol)
-/
def symbolsLoop (o : PyObject) : List (String × String) → List String → Except PyErr (List String)
  | [], acc => .ok acc
  | (var, symbol) :: rest, acc =>
    if var ∈ o.attrs ∧ symbol ∉ acc then
      if var = "__doc__" then
        match docCheck o.docString with
        | .error e => .error e
        | .ok true => symbolsLoop o rest (acc ++ [symbol])
        | .ok false => symbolsLoop o rest acc
      else
        symbolsLoop o rest (acc ++ [symbol])
    else
      symbolsLoop o rest acc

/-- The attribute loop of `see.py` over the already-filtered non-internal
names:

    for attr in filter(lambda a: not a.startswith('_'), attrs):
        try:
            prop = getattr(obj, attr)
        except AttributeError:
            continue
        actions.append(name(attr, prop))

An `AttributeError` skips the attribute; any other exception propagates. -/
def attrLoop (o : PyObject) (dot : String) : List String → Except PyErr (List String)
  | [] => .ok []
  | a :: rest =>
    match o.getattr a with
    | .error .attributeError => attrLoop o dot rest
    | .error .indexError => .error .indexError
    | .error .otherError => .error .otherError
    | .ok v => (attrLoop o dot rest).map (fun ts => (dot ++ a ++ funcSuffix v) :: ts)

/-- The attribute-scanner stage of `see.py`: `dot = not locals and '.' or ''`,
then the loop above over the non-underscore names of `dir(obj)`. -/
def attrTokens (o : PyObject) (useLocals : Bool) : Except PyErr (List String) :=
  attrLoop o (if useLocals then "" else ".") (o.attrs.filter (fun a => !(startsWithUnderscore a)))

/-- `see(obj, pattern, r)` of the legacy `see.py`, after the locals decision
(`useLocals = obj is _NO_OBJ`) has been made: the capability pass (skipped in
locals mode), the attribute scan, then the optional filters. -/
def see (o : PyObject) (useLocals : Bool)
    (pattern : Option (String → Bool)) (r : Option (String → Option Nat)) :
    Except PyErr (List String) := do
  let syms ← if useLocals then pure [] else symbolsLoop o SYMBOLS []
  let atoks ← attrTokens o useLocals
  pure (applyFilters (syms ++ atoks) pattern r)

/-- The `dir()` listing contributed by the `_LocalsProxy` class itself (plain
`object` machinery): every such name begins with an underscore, which is the
only fact the code depends on.  `dir()` actually returns the sorted union of
these names with the instance-dictionary names; the model keeps the class
names first, an ordering none of the verified claims depend on. -/
def PROXY_DIR : List String :=
  ["__class__", "__delattr__", "__dict__", "__dir__", "__doc__", "__eq__",
   "__format__", "__ge__", "__getattribute__", "__gt__", "__hash__",
   "__init__", "__init_subclass__", "__le__", "__lt__", "__module__",
   "__ne__", "__new__", "__reduce__", "__reduce_ex__", "__repr__",
   "__setattr__", "__sizeof__", "__str__", "__subclasshook__", "__weakref__"]

/-- The object observed when a namespace mapping is exposed through an
attribute-accessible wrapper (`_LocalsProxy` with `__dict__` rebound in
`see.py`, `Namespace` in the package): `dir()` lists the class internals plus
the bound names, `getattr` looks a name up in the mapping, and the class has
no docstring. -/
def proxyObject (ns : List (String × PyValue)) : PyObject where
  attrs := PROXY_DIR ++ ns.map Prod.fst
  getattr := fun a =>
    match ns.find? (fun kv => kv.1 == a) with
    | some kv => .ok kv.2
    | none => .error .attributeError
  docString := .ok none

/-- How `see.py` is called: either with an explicit object (any object the
caller passes, however falsy) or with the argument omitted, in which case the
identity test `obj is _NO_OBJ` selects local-scope inspection. -/
inductive SeeArg where
  | omitted
  | given (o : PyObject)

/-- The entry point of `see.py` with the module-level mutable state made
explicit: `st` is the instance dictionary of the shared `_NO_OBJ` singleton
before the call.  A local-scope call executes
`obj.__dict__ = inspect.currentframe().f_back.f_locals` on that singleton,
so the call returns the new module state alongside the result. -/
def seeEntry (st : Option (List (String × PyValue))) (arg : SeeArg)
    (callerLocals : List (String × PyValue))
    (pattern : Option (String → Bool)) (r : Option (String → Option Nat)) :
    Option (List (String × PyValue)) × Except PyErr (List String) :=
  match arg with
  | .given o => (st, see o false pattern r)
  | .omitted => (some callerLocals, see (proxyObject callerLocals) true pattern r)

/-- `class SeeActions(tuple)`: a tuple of strings whose only override is its
display representation. -/
structure SeeActions where
  toList : List String
deriving DecidableEq, Repr

/-- `SeeActions.__new__(self, actions=None)` builds the tuple from
`actions or []`: an omitted or falsy argument yields the empty tuple. -/
def SeeActions.new (actions : Option (List String)) : SeeActions :=
  ⟨match actions with
    | none => []
    | some l => l⟩

/-- The text that `SeeActions.__repr__` hands to `textwrap.fill`: the tokens
joined by a fixed three-space separator. -/
def reprInput (a : SeeActions) : String :=
  String.intercalate "   " a.toList

/-- `SeeActions.__repr__`: `textwrap.fill('   '.join(self), 78,
initial_indent='  ', subsequent_indent='  ')`, with `textwrap.fill` abstracted
as a function of the text, the width and the (shared) indent. -/
def SeeActionsRepr (a : SeeActions) (fill : String → Nat → String → String) : String :=
  fill (reprInput a) 78 "  "

end SeePy

namespace Inspector

/-! Embedding of the package module `see/inspector.py`.  The helper modules it
imports are not among the sources; each definition modelled from the spec says
so in its doc comment. -/

/-- The outcome the inspector binds to `prop` for one attribute: either the
resolved value, or the `SeeError` sentinel substituted by
`except (AttributeError, Exception): prop = SeeError()`. -/
inductive Resolved where
  | val (v : PyValue)
  | err
deriving DecidableEq, Repr

/-- Modelled from the spec: the suffix chosen by `output.display_name`
(module `see/output.py` is not under the sources).  Per the spec's Attribute
Scanner contract, a resolved value gets the call marker `()` if callable and
nothing otherwise, while a resolution failure gets "an 'error' display
instead of a suffix check"; the model renders that error display as `"?"`
(the concrete glyph is not fixed by the spec and no claim depends on it). -/
def dnSuffix : Resolved → String
  | .err => "?"
  | .val v => if v.callable then "()" else ""

/-- Modelled from the spec: `output.display_name(name, obj, local)` (module
`see/output.py` is not under the sources).  Per the spec's Token and
Attribute Scanner contracts: the bare `name` with its suffix when inspecting
local scope, else a leading member-access separator (a dot) before it. -/
def display_name (name : String) (obj : Resolved) (isLocal : Bool) : String :=
  (if isLocal then "" else ".") ++ name ++ dnSuffix obj

/-- `try: prop = getattr(obj, attr); except (AttributeError, Exception):
prop = SeeError()` — every modelled exception class is caught and replaced by
the sentinel. -/
def resolveAttr (o : PyObject) (a : String) : Resolved :=
  match o.getattr a with
  | .ok v => .val v
  | .error _ => .err

/-- Modelled from the spec: one entry of the `FEATURES` registry (module
`see/features.py` is not under the sources).  The spec describes a capability
entry as a probe paired with a display symbol; `feature.match(obj, attrs)` is
kept abstract as a predicate on the object and its attribute listing. -/
structure Feature where
  symbol : String
  matchFn : PyObject → List String → Bool

/-- `INSPECT_FUNCS`: the `is*` predicates harvested from the `inspect`
module at import time, paired with their names.  The harvested set depends on
the Python revision, so the model keeps it as a parameter. -/
def InspectFuncs : Type := List (String × (PyObject → Bool))

/-- The capability-detection passes of `inspector.see` for a concrete target:

    for name, func in INSPECT_FUNCS:
        if func(obj):
            actions.append(name)
    for feature in FEATURES:
        if feature.match(obj, attrs):
            actions.append(feature.symbol)
-/
def capTokens (ifuncs : InspectFuncs) (feats : List Feature) (o : PyObject) : List String :=
  let l1 := ifuncs.foldl (fun acc nf => if nf.2 o then acc ++ [nf.1] else acc) []
  feats.foldl (fun acc f => if f.matchFn o o.attrs then acc ++ [f.symbol] else acc) l1

/-- Modelled from the spec: `tools.filter_wildcard(tokens, pattern)` (module
`see/tools.py` is not under the sources).  Per the spec's Filter Stage
contract it keeps exactly the tokens whose full string matches the shell-style
pattern; the compiled pattern is the whole-string predicate `fnmatchPat`. -/
def filter_wildcard (tokens : List String) (fnmatchPat : String → Bool) : List String :=
  tokens.filter fnmatchPat

/-- Modelled from the spec: `tools.filter_regex(tokens, r)` (module
`see/tools.py` is not under the sources).  Per the spec's Filter Stage
contract it keeps exactly the tokens containing an (unanchored) match of the
expression, modelled by the compiled pattern's `search` method. -/
def filter_regex (tokens : List String) (search : String → Option Nat) : List String :=
  tokens.filter (fun tok => (search tok).isSome)

/-- The two optional filter applications at the end of `inspector.see`:
wildcard (`pattern`) first, then regex (`r`). -/
def applyFilters (acts : List String)
    (pattern : Option (String → Bool)) (r : Option (String → Option Nat)) : List String :=
  let a1 := match pattern with
    | some p => filter_wildcard acts p
    | none => acts
  match r with
  | some search => filter_regex a1 search
  | none => a1

/-- `inspector.see(obj, pattern, r)` after the locals decision
(`use_locals = obj is DEFAULT_ARG`) has been made: capability detection
(skipped in locals mode), then the attribute loop appending one
`display_name` token per non-internal attribute onto the same `actions`
list, then the optional filters.  No exception escapes: resolution failures
are replaced by the `SeeError` sentinel. -/
def see (ifuncs : InspectFuncs) (feats : List Feature) (o : PyObject) (useLocals : Bool)
    (pattern : Option (String → Bool)) (r : Option (String → Option Nat)) : List String :=
  let caps := if useLocals then [] else capTokens ifuncs feats o
  let acts := (o.attrs.filter (fun a => !(startsWithUnderscore a))).foldl
    (fun acc a => acc ++ [display_name a (resolveAttr o a) useLocals]) caps
  applyFilters acts pattern r

/-- How `inspector.see` is called: either with an explicit object (any
object, however falsy — `None`, `0`, an empty container — is a `given`
argument distinct from the sentinel) or with the argument omitted, in which
case the default argument is the module-level `DEFAULT_ARG` sentinel and the
identity test `obj is DEFAULT_ARG` selects local-scope inspection. -/
inductive SeeArg where
  | defaultArg
  | given (o : PyObject)

/-- The entry point of `inspector.see`: on the sentinel argument a fresh
`Namespace` wrapper is built from the caller's locals inside the call; no
module-level state is threaded because the function reads and writes none. -/
def seeEntry (ifuncs : InspectFuncs) (feats : List Feature) (arg : SeeArg)
    (callerLocals : List (String × PyValue))
    (pattern : Option (String → Bool)) (r : Option (String → Option Nat)) : List String :=
  match arg with
  | .given o => see ifuncs feats o false pattern r
  | .defaultArg => see ifuncs feats (SeePy.proxyObject callerLocals) true pattern r

/-- `class SeeResult(tuple)`: a tuple of strings whose only override is its
display representation. -/
structure SeeResult where
  toList : List String
deriving DecidableEq, Repr

/-- `SeeResult.__new__(cls, actions=None)` builds the tuple from
`actions or []`. -/
def SeeResult.new (actions : Option (List String)) : SeeResult :=
  ⟨match actions with
    | none => []
    | some l => l⟩

/-- Modelled from the spec: the fixed padding added to the longest token's
length by `output.column_width` (module `see/output.py` is not under the
sources); the spec fixes only that the padding is a constant. -/
def COLUMN_PADDING : Nat := 2

/-- Length of the longest token of a list. -/
def maxTokenLen (tokens : List String) : Nat :=
  (tokens.map String.length).foldr max 0

/-- Modelled from the spec: `output.column_width(tokens)` (module
`see/output.py` is not under the sources): the length of the longest token
plus the fixed padding. -/
def column_width (tokens : List String) : Nat :=
  maxTokenLen tokens + COLUMN_PADDING

/-- Modelled from the spec: `output.justify_token(tok, col_width)` (module
`see/output.py` is not under the sources): left-justify the token by padding
it with spaces to the column width. -/
def justify_token (tok : String) (w : Nat) : String :=
  tok ++ String.mk (List.replicate (w - tok.length) ' ')

/-- The concatenation of all tokens consistently padded to one width. -/
def paddedJoin (tokens : List String) (w : Nat) : String :=
  String.join (tokens.map (fun tok => justify_token tok w))

/-- Whether a text is the join of the given tokens each padded to one common
column width. -/
def isPaddedJoinOf (text : String) (tokens : List String) : Prop :=
  ∃ w, text = paddedJoin tokens w

/-- The ambient display environment read by `SeeResult.__repr__`: the
interactive prompt marker `sys.ps1` when one exists, the detected line width
`term.line_width()` (module `see/term.py` is not under the sources, so the
detected width is an abstract field), and `textwrap.fill` abstracted as a
function of the text, the width and the (shared) indent. -/
structure Terminal where
  ps1 : Option String
  lineWidth : Nat
  fill : String → Nat → String → String

/-- The indent chosen by `SeeResult.__repr__`: spaces matching the length of
a non-empty `sys.ps1`, else the fixed four-space default (`'    '`). -/
def indentFor (ps1 : Option String) : String :=
  match ps1 with
  | some p => if p.length = 0 then "    " else String.mk (List.replicate p.length ' ')
  | none => "    "

/-- `SeeResult.__repr__`: pad every token to the computed column width, join,
and wrap the joined text to the detected line width with the prompt-derived
indent. -/
def SeeResultRepr (a : SeeResult) (env : Terminal) : String :=
  env.fill (paddedJoin a.toList (column_width a.toList)) env.lineWidth (indentFor env.ps1)

end Inspector

/-! Concrete objects used to evaluate the embeddings on explicit inputs. -/

/-- An object whose only attribute raises `AttributeError` on resolution. -/
def exSkipObj : PyObject where
  attrs := ["x"]
  getattr := fun _ => .error .attributeError
  docString := .ok none

/-- An object whose only attribute raises an exception that is neither
`AttributeError` nor `IndexError` on resolution. -/
def exRaiseObj : PyObject where
  attrs := ["x"]
  getattr := fun _ => .error .otherError
  docString := .ok none

/-- An object with a non-blank docstring and no non-internal attributes. -/
def exDocObj : PyObject where
  attrs := ["__doc__"]
  getattr := fun _ => .error .attributeError
  docString := .ok (some "A docstring.")

/-- An object whose `__doc__` access raises an exception that is neither
`AttributeError` nor `IndexError` (for example a metaclass property that
raises `RuntimeError`). -/
def exDocErrObj : PyObject where
  attrs := ["__doc__"]
  getattr := fun _ => .error .attributeError
  docString := .error .otherError

/-- An object whose custom `__dir__` lists both the dynamic-getattr hook and
a literal `"*"` attribute that resolves to a non-callable value, so that the
scanner's token for `"*"` coincides textually with the `".*"` capability
symbol (in Python: `class X: __dir__ = lambda s: ['__getattr__', '*'];
__getattr__ = lambda s, n: 1`). -/
def exStarObj : PyObject where
  attrs := ["__getattr__", "*"]
  getattr := fun a => if a = "*" then .ok ⟨false⟩ else .error .attributeError
  docString := .ok none

/-- An object with one callable non-internal attribute. -/
def exMethObj : PyObject where
  attrs := ["m"]
  getattr := fun a => if a = "m" then .ok ⟨true⟩ else .error .attributeError
  docString := .ok none

/-! ## Helper lemmas -/

namespace SeePy

/-- A symbol is in the output of the capability pass exactly when it is
already accumulated or some registry entry for it fires. -/
theorem symbolsLoop_mem (o : PyObject) (R : List (String × String)) :
    ∀ (acc out : List String), symbolsLoop o R acc = .ok out →
      ∀ s, s ∈ out ↔ s ∈ acc ∨ ∃ v, (v, s) ∈ R ∧ entryFires o v := by
  induction R with
  | nil =>
    intro acc out h s
    simp only [symbolsLoop, Except.ok.injEq] at h
    subst h
    simp
  | cons vs rest ih =>
    obtain ⟨var, symbol⟩ := vs
    intro acc out h s
    simp only [symbolsLoop] at h
    by_cases hc : var ∈ o.attrs ∧ symbol ∉ acc
    · rw [if_pos hc] at h
      by_cases hd : var = "__doc__"
      · rw [if_pos hd] at h
        cases hdc : docCheck o.docString with
        | error e => rw [hdc] at h; cases h
        | ok b =>
          rw [hdc] at h
          cases b with
          | false =>
            rw [ih acc out h s]
            constructor
            · rintro (hs | ⟨v, hv, hf⟩)
              · exact Or.inl hs
              · exact Or.inr ⟨v, List.mem_cons_of_mem _ hv, hf⟩
            · rintro (hs | ⟨v, hv, hf⟩)
              · exact Or.inl hs
              · rcases List.mem_cons.mp hv with heq | hv2
                · simp only [Prod.mk.injEq] at heq
                  obtain ⟨h1, _⟩ := heq
                  subst h1
                  have := hf.2 hd
                  rw [hdc] at this
                  cases this
                · exact Or.inr ⟨v, hv2, hf⟩
          | true =>
            rw [ih (acc ++ [symbol]) out h s]
            constructor
            · rintro (hs | ⟨v, hv, hf⟩)
              · rcases List.mem_append.mp hs with h1 | h1
                · exact Or.inl h1
                · have : s = symbol := by simpa using h1
                  subst this
                  exact Or.inr ⟨var, List.mem_cons_self _ _, hc.1, fun _ => hdc⟩
              · exact Or.inr ⟨v, List.mem_cons_of_mem _ hv, hf⟩
            · rintro (hs | ⟨v, hv, hf⟩)
              · exact Or.inl (List.mem_append.mpr (Or.inl hs))
              · rcases List.mem_cons.mp hv with heq | hv2
                · simp only [Prod.mk.injEq] at heq
                  obtain ⟨h1, h2⟩ := heq
                  subst h2
                  exact Or.inl (List.mem_append.mpr (Or.inr (by simp)))
                · exact Or.inr ⟨v, hv2, hf⟩
      · rw [if_neg hd] at h
        rw [ih (acc ++ [symbol]) out h s]
        constructor
        · rintro (hs | ⟨v, hv, hf⟩)
          · rcases List.mem_append.mp hs with h1 | h1
            · exact Or.inl h1
            · have : s = symbol := by simpa using h1
              subst this
              exact Or.inr ⟨var, List.mem_cons_self _ _, hc.1, fun hdoc => absurd hdoc hd⟩
          · exact Or.inr ⟨v, List.mem_cons_of_mem _ hv, hf⟩
        · rintro (hs | ⟨v, hv, hf⟩)
          · exact Or.inl (List.mem_append.mpr (Or.inl hs))
          · rcases List.mem_cons.mp hv with heq | hv2
            · simp only [Prod.mk.injEq] at heq
              obtain ⟨h1, h2⟩ := heq
              subst h2
              exact Or.inl (List.mem_append.mpr (Or.inr (by simp)))
            · exact Or.inr ⟨v, hv2, hf⟩
    · rw [if_neg hc] at h
      rw [ih acc out h s]
      rw [not_and_or, not_not] at hc
      constructor
      · rintro (hs | ⟨v, hv, hf⟩)
        · exact Or.inl hs
        · exact Or.inr ⟨v, List.mem_cons_of_mem _ hv, hf⟩
      · rintro (hs | ⟨v, hv, hf⟩)
        · exact Or.inl hs
        · rcases List.mem_cons.mp hv with heq | hv2
          · simp only [Prod.mk.injEq] at heq
            obtain ⟨h1, h2⟩ := heq
            subst h1; subst h2
            rcases hc with hna | hin
            · exact absurd hf.1 hna
            · exact Or.inl hin
          · exact Or.inr ⟨v, hv2, hf⟩

/-- The capability pass never accumulates a symbol twice. -/
theorem symbolsLoop_nodup (o : PyObject) (R : List (String × String)) :
    ∀ (acc out : List String), acc.Nodup → symbolsLoop o R acc = .ok out → out.Nodup := by
  induction R with
  | nil =>
    intro acc out hn h
    simp only [symbolsLoop, Except.ok.injEq] at h
    subst h
    exact hn
  | cons vs rest ih =>
    obtain ⟨var, symbol⟩ := vs
    intro acc out hn h
    simp only [symbolsLoop] at h
    by_cases hc : var ∈ o.attrs ∧ symbol ∉ acc
    · rw [if_pos hc] at h
      have hn2 : (acc ++ [symbol]).Nodup := by
        simp [List.nodup_append, hn, hc.2]
      by_cases hd : var = "__doc__"
      · rw [if_pos hd] at h
        cases hdc : docCheck o.docString with
        | error e => rw [hdc] at h; cases h
        | ok b =>
          rw [hdc] at h
          cases b with
          | false => exact ih acc out hn h
          | true => exact ih (acc ++ [symbol]) out hn2 h
      · rw [if_neg hd] at h
        exact ih (acc ++ [symbol]) out hn2 h
    · rw [if_neg hc] at h
      exact ih acc out hn h

/-- If reading `__doc__` raises an exception outside the caught classes, the
capability pass propagates it (provided the registry still holds an entry for
the documentation probe whose symbol has not been emitted, and no other probe
maps to that symbol). -/
theorem symbolsLoop_doc_err (o : PyObject) (e : PyErr) (sym : String)
    (hdc : docCheck o.docString = .error e) (hattr : "__doc__" ∈ o.attrs) :
    ∀ (R : List (String × String)) (acc : List String),
      ("__doc__", sym) ∈ R → sym ∉ acc →
      (∀ vs ∈ R, vs.2 = sym → vs.1 = "__doc__") →
      symbolsLoop o R acc = .error e := by
  intro R
  induction R with
  | nil => intro acc hmem; cases hmem
  | cons vs rest ih =>
    obtain ⟨var, symbol⟩ := vs
    intro acc hmem hnacc huniq
    simp only [symbolsLoop]
    by_cases hc : var ∈ o.attrs ∧ symbol ∉ acc
    · rw [if_pos hc]
      by_cases hd : var = "__doc__"
      · rw [if_pos hd, hdc]
      · rw [if_neg hd]
        have hmem2 : ("__doc__", sym) ∈ rest := by
          rcases List.mem_cons.mp hmem with heq | h2
          · simp only [Prod.mk.injEq] at heq
            exact absurd heq.1.symm hd
          · exact h2
        have hsym : symbol ≠ sym := by
          intro hcontra
          exact hd (huniq (var, symbol) (List.mem_cons_self _ _) hcontra)
        refine ih (acc ++ [symbol]) hmem2 ?_ ?_
        · intro hin
          rcases List.mem_append.mp hin with h1 | h1
          · exact hnacc h1
          · have h3 : sym = symbol := by simpa using h1
            exact hsym h3.symm
        · intro p hp hps
          exact huniq p (List.mem_cons_of_mem _ hp) hps
    · rw [if_neg hc]
      have hmem2 : ("__doc__", sym) ∈ rest := by
        rcases List.mem_cons.mp hmem with heq | h2
        · simp only [Prod.mk.injEq] at heq
          obtain ⟨h1, h2⟩ := heq
          subst h1; subst h2
          exact absurd ⟨hattr, hnacc⟩ hc
        · exact h2
      exact ih acc hmem2 hnacc fun p hp hps => huniq p (List.mem_cons_of_mem _ hp) hps

/-- Shape of every token produced by the attribute loop. -/
theorem attrLoop_mem (o : PyObject) (dot : String) :
    ∀ (l ts : List String), attrLoop o dot l = .ok ts →
      ∀ t ∈ ts, ∃ a v, a ∈ l ∧ o.getattr a = .ok v ∧ t = dot ++ a ++ funcSuffix v := by
  intro l
  induction l with
  | nil =>
    intro ts h t ht
    simp only [attrLoop, Except.ok.injEq] at h
    subst h
    cases ht
  | cons a rest ih =>
    intro ts h t ht
    simp only [attrLoop] at h
    cases hg : o.getattr a with
    | error e =>
      rw [hg] at h
      cases e with
      | attributeError =>
        obtain ⟨a2, v, ha, hv, hts⟩ := ih ts h t ht
        exact ⟨a2, v, List.mem_cons_of_mem _ ha, hv, hts⟩
      | indexError => cases h
      | otherError => cases h
    | ok v =>
      rw [hg] at h
      cases hr : attrLoop o dot rest with
      | error e => rw [hr] at h; cases h
      | ok ts2 =>
        rw [hr] at h
        simp only [Except.map, Except.ok.injEq] at h
        subst h
        rcases List.mem_cons.mp ht with heq | h2
        · exact ⟨a, v, List.mem_cons_self _ _, hg, heq⟩
        · obtain ⟨a2, v2, ha, hv, hts⟩ := ih ts2 hr t h2
          exact ⟨a2, v2, List.mem_cons_of_mem _ ha, hv, hts⟩

/-- Both filters only ever discard tokens. -/
theorem applyFilters_subset (acts : List String)
    (pattern : Option (String → Bool)) (r : Option (String → Option Nat)) :
    ∀ t ∈ applyFilters acts pattern r, t ∈ acts := by
  intro t ht
  unfold applyFilters at ht
  cases pattern <;> cases r <;>
    simp only [fn_filter, regex_filter, List.mem_filter] at ht <;> tauto

/-- `see` with filters is `see` without filters with the filters applied to
the token list. -/
theorem see_map_filters (o : PyObject) (u : Bool)
    (pattern : Option (String → Bool)) (r : Option (String → Option Nat)) :
    see o u pattern r = (see o u none none).map (fun acts => applyFilters acts pattern r) := by
  unfold see
  cases u with
  | true =>
    cases h2 : attrTokens o true with
    | error e => simp [bind, Except.bind, h2, Except.map, pure, Except.pure]
    | ok atoks => simp [bind, Except.bind, h2, Except.map, pure, Except.pure, applyFilters]
  | false =>
    cases h1 : symbolsLoop o SYMBOLS [] with
    | error e => simp [bind, Except.bind, h1, Except.map]
    | ok syms =>
      cases h2 : attrTokens o false with
      | error e => simp [bind, Except.bind, h1, h2, Except.map]
      | ok atoks => simp [bind, Except.bind, h1, h2, Except.map, pure, Except.pure, applyFilters]

end SeePy

namespace Inspector

/-- A conditional-append fold is the filtered map appended to the seed. -/
theorem foldl_append_filter {α : Type} (p : α → Bool) (g : α → String) :
    ∀ (l : List α) (acc : List String),
      l.foldl (fun acc x => if p x then acc ++ [g x] else acc) acc
        = acc ++ (l.filter p).map g := by
  intro l
  induction l with
  | nil => intro acc; simp
  | cons x rest ih =>
    intro acc
    simp only [List.foldl_cons, List.filter_cons]
    by_cases hp : p x = true
    · rw [if_pos hp, ih]
      simp [hp]
    · rw [if_neg hp, ih]
      simp [hp]

/-- An unconditional-append fold is the map appended to the seed. -/
theorem foldl_append_map {α : Type} (g : α → String) :
    ∀ (l : List α) (acc : List String),
      l.foldl (fun acc x => acc ++ [g x]) acc = acc ++ l.map g := by
  intro l
  induction l with
  | nil => intro acc; simp
  | cons x rest ih =>
    intro acc
    simp only [List.foldl_cons]
    rw [ih]
    simp

/-- The capability passes produce the fired predicate names followed by the
fired feature symbols. -/
theorem capTokens_eq (ifuncs : InspectFuncs) (feats : List Feature) (o : PyObject) :
    capTokens ifuncs feats o
      = (ifuncs.filter (fun nf => nf.2 o)).map Prod.fst
        ++ (feats.filter (fun f => f.matchFn o o.attrs)).map Feature.symbol := by
  show (feats.foldl _ (ifuncs.foldl _ [])) = _
  rw [foldl_append_filter, foldl_append_filter]
  simp

/-- `inspector.see` unfolded: the capability tokens (empty in locals mode)
followed by one display token per non-internal attribute, then the filters. -/
theorem inspector_see_eq (ifuncs : InspectFuncs) (feats : List Feature) (o : PyObject)
    (useLocals : Bool) (pattern : Option (String → Bool)) (r : Option (String → Option Nat)) :
    see ifuncs feats o useLocals pattern r
      = applyFilters ((if useLocals then [] else capTokens ifuncs feats o)
          ++ (o.attrs.filter (fun a => !(startsWithUnderscore a))).map
              (fun a => display_name a (resolveAttr o a) useLocals)) pattern r := by
  show applyFilters ((o.attrs.filter _).foldl _ _) pattern r = _
  rw [foldl_append_map]

/-- The package filters only ever discard tokens. -/
theorem filters_subset (acts : List String)
    (pattern : Option (String → Bool)) (r : Option (String → Option Nat)) :
    ∀ t ∈ applyFilters acts pattern r, t ∈ acts := by
  intro t ht
  unfold applyFilters at ht
  cases pattern <;> cases r <;>
    simp only [filter_wildcard, filter_regex, List.mem_filter] at ht <;> tauto

end Inspector

namespace SeePy

/-- Applying no filters returns the token list unchanged. -/
theorem applyFilters_none (acts : List String) : applyFilters acts none none = acts := rfl

/-- Destructuring an unfiltered successful `see.py` call into its capability
tokens and its attribute tokens. -/
theorem see_ok_unfiltered (o : PyObject) (u : Bool) (toks : List String)
    (h : see o u none none = .ok toks) :
    ∃ syms atoks, (if u then Except.ok [] else symbolsLoop o SYMBOLS []) = .ok syms
      ∧ attrTokens o u = .ok atoks ∧ toks = syms ++ atoks := by
  unfold see at h
  cases u with
  | true =>
    rw [if_pos rfl] at h ⊢
    cases h2 : attrTokens o true with
    | error e =>
      rw [h2] at h
      simp [bind, Except.bind, pure, Except.pure] at h
    | ok atoks =>
      rw [h2] at h
      simp only [bind, Except.bind, pure, Except.pure, Except.ok.injEq] at h
      exact ⟨[], atoks, rfl, rfl, h.symm⟩
  | false =>
    rw [if_neg Bool.false_ne_true] at h ⊢
    cases h1 : symbolsLoop o SYMBOLS [] with
    | error e =>
      rw [h1] at h
      simp [bind, Except.bind] at h
    | ok syms =>
      rw [h1] at h
      cases h2 : attrTokens o false with
      | error e =>
        rw [h2] at h
        simp [bind, Except.bind, pure, Except.pure] at h
      | ok atoks =>
        rw [h2] at h
        simp only [bind, Except.bind, pure, Except.pure, Except.ok.injEq] at h
        exact ⟨syms, atoks, rfl, rfl, h.symm⟩

end SeePy

/-- The first character of a token built with a leading dot. -/
theorem head_dot_append (a b : String) : ((("." ++ a) ++ b).data).head? = some '.' := by
  rw [String.data_append, String.data_append]
  rfl

/-! ## Claim theorems -/

/-- C1 (amended): for the package inspector's inspection call, every
non-internal attribute whose resolution raises contributes exactly one
sentinel-displayed token, so the unfiltered result is the capability tokens
followed by exactly one token per non-internal attribute; the call is a total
function of the object (no exception propagates). -/
theorem claim_C1_sentinel_containment (ifuncs : Inspector.InspectFuncs)
    (feats : List Inspector.Feature) (o : PyObject) :
    Inspector.see ifuncs feats o false none none
      = Inspector.capTokens ifuncs feats o
        ++ (o.attrs.filter (fun a => !(startsWithUnderscore a))).map
            (fun a => Inspector.display_name a (Inspector.resolveAttr o a) false)
    ∧ (Inspector.see ifuncs feats o false none none).length
      = (Inspector.capTokens ifuncs feats o).length
        + (o.attrs.filter (fun a => !(startsWithUnderscore a))).length := by
  have h := Inspector.inspector_see_eq ifuncs feats o false none none
  rw [if_neg Bool.false_ne_true] at h
  simp only [Inspector.applyFilters] at h
  refine ⟨h, ?_⟩
  rw [h]
  simp

/-- C1 counterexample: the legacy root-module `see` violates the claim as
stated — its only attribute raises on resolution, yet the unfiltered result
is empty (the attribute is skipped, not replaced by a sentinel token), and
when the raised exception is outside `AttributeError` the whole call
propagates it instead of containing it. -/
theorem claim_C1_counterexample :
    (SeePy.see exSkipObj false none none = .ok []
      ∧ (exSkipObj.attrs.filter (fun a => !(startsWithUnderscore a))).length = 1)
    ∧ SeePy.see exRaiseObj false none none = .error .otherError := by
  refine ⟨⟨?_, ?_⟩, ?_⟩ <;> decide

/-- C2 (amended): the legacy `see` emits the documentation-presence symbol
`help()` exactly when `__doc__` is listed by `dir(obj)` and the docstring
check succeeds, i.e. the docstring resolves to a string with a
non-whitespace character; a `None` docstring or an `AttributeError` or
`IndexError` during the access suppresses the symbol; but an exception of
any other class raised by the `__doc__` access propagates out of the call. -/
theorem claim_C2_doc_symbol (o : PyObject) :
    (∀ toks, SeePy.see o false none none = .ok toks →
      ("help()" ∈ toks ↔ "__doc__" ∈ o.attrs ∧ SeePy.docCheck o.docString = .ok true))
    ∧ (∀ s : String, SeePy.docCheck (.ok (some s)) = .ok true
        ↔ ∃ c ∈ s.toList, c.isWhitespace = false)
    ∧ SeePy.docCheck (.ok none) = .ok false
    ∧ SeePy.docCheck (.error .attributeError) = .ok false
    ∧ SeePy.docCheck (.error .indexError) = .ok false
    ∧ ("__doc__" ∈ o.attrs → o.docString = .error .otherError →
        SeePy.see o false none none = .error .otherError) := by
  refine ⟨?_, ?_, rfl, rfl, rfl, ?_⟩
  · intro toks h
    obtain ⟨syms, atoks, h1, h2, rfl⟩ := SeePy.see_ok_unfiltered o false toks h
    rw [if_neg Bool.false_ne_true] at h1
    have h2a : SeePy.attrLoop o "."
        (o.attrs.filter (fun a => !(startsWithUnderscore a))) = .ok atoks := h2
    constructor
    · intro hmem
      rcases List.mem_append.mp hmem with hs | ha
      · have := (SeePy.symbolsLoop_mem o SeePy.SYMBOLS [] syms h1 "help()").mp hs
        simp only [List.not_mem_nil, false_or] at this
        obtain ⟨v, hv, hf⟩ := this
        have hveq : v = "__doc__" :=
          (by decide : ∀ vs ∈ SeePy.SYMBOLS, vs.2 = "help()" → vs.1 = "__doc__")
            (v, "help()") hv rfl
        subst hveq
        exact ⟨hf.1, hf.2 rfl⟩
      · obtain ⟨a, v, _, _, heq⟩ :=
          SeePy.attrLoop_mem o "." _ atoks h2a "help()" ha
        have hd := head_dot_append a (SeePy.funcSuffix v)
        rw [← heq] at hd
        exact absurd hd (by decide)
    · rintro ⟨hattr, hdc⟩
      apply List.mem_append.mpr
      left
      apply (SeePy.symbolsLoop_mem o SeePy.SYMBOLS [] syms h1 "help()").mpr
      right
      exact ⟨"__doc__", by decide, hattr, fun _ => hdc⟩
  · intro s
    simp [SeePy.docCheck, List.any_eq_true]
  · intro hattr hde
    have hdc : SeePy.docCheck o.docString = .error .otherError := by
      rw [hde]
      rfl
    have hserr : SeePy.symbolsLoop o SeePy.SYMBOLS [] = .error .otherError :=
      SeePy.symbolsLoop_doc_err o .otherError "help()" hdc hattr SeePy.SYMBOLS []
        (by decide) (by simp) (by decide)
    unfold SeePy.see
    rw [if_neg Bool.false_ne_true, hserr]
    simp [bind, Except.bind]

/-- C2 witness: a concrete object whose docstring is present and non-blank
carries the `help()` symbol in its inspection result. -/
theorem claim_C2_witness :
    "help()" ∈ ["help()"]
      ↔ "__doc__" ∈ exDocObj.attrs ∧ SeePy.docCheck exDocObj.docString = .ok true :=
  (claim_C2_doc_symbol exDocObj).1 ["help()"] (by decide)

/-- C2 counterexample: a `__doc__` access raising an exception outside
`(AttributeError, IndexError)` is not suppressed — the inspection call
propagates it, contradicting the claim that any error while accessing the
documentation string suppresses the symbol without propagating. -/
theorem claim_C2_counterexample :
    SeePy.see exDocErrObj false none none = .error .otherError := by decide

/-- C3 (amended): within one capability-detection pass of the legacy `see`,
each symbol is emitted at most once — the output of the pass has no
duplicates, and a symbol is present exactly when some registry entry for it
fires (so a later probe for an already-emitted symbol contributes nothing). -/
theorem claim_C3_symbol_dedup (o : PyObject) (out : List String)
    (h : SeePy.symbolsLoop o SeePy.SYMBOLS [] = .ok out) :
    out.Nodup ∧ (∀ s, List.count s out ≤ 1)
    ∧ (∀ s, s ∈ out ↔ ∃ v, (v, s) ∈ SeePy.SYMBOLS ∧ SeePy.entryFires o v) := by
  have hnd := SeePy.symbolsLoop_nodup o SeePy.SYMBOLS [] out List.nodup_nil h
  refine ⟨hnd, ?_, ?_⟩
  · intro s
    exact List.nodup_iff_count_le_one.mp hnd s
  · intro s
    have := SeePy.symbolsLoop_mem o SeePy.SYMBOLS [] out h s
    simpa using this

/-- C3 witness: the detection pass on a concrete object emits `.*` once. -/
theorem claim_C3_witness :
    ([".*"] : List String).Nodup ∧ (∀ s, List.count s [".*"] ≤ 1)
    ∧ (∀ s, s ∈ [".*"] ↔ ∃ v, (v, s) ∈ SeePy.SYMBOLS ∧ SeePy.entryFires exStarObj v) :=
  claim_C3_symbol_dedup exStarObj [".*"] (by decide)

/-- C3 counterexample: the claim as stated speaks of the whole result; on an
object whose custom `__dir__` exposes a literal `"*"` attribute alongside the
dynamic-getattr hook, the `.*` capability symbol and the scanner token for
`"*"` coincide, so the string `.*` appears twice in the result. -/
theorem claim_C3_counterexample :
    SeePy.see exStarObj false none none = .ok [".*", ".*"]
    ∧ List.count ".*" [".*", ".*"] = 2 := by
  exact ⟨by decide, by decide⟩

/-- C4: the wildcard filter keeps exactly the tokens on which the compiled
shell-style pattern holds of the full token string, the regex filter keeps
exactly the tokens on which the compiled expression's (unanchored) search
finds a match, and when both are supplied the wildcard filter is applied
first and the regex filter second (the pattern is compiled before the filter
runs, so the embedding passes the already-compiled matcher). -/
theorem claim_C4_filter_stage :
    (∀ (names : List String) (p : String → Bool) (t : String),
        t ∈ SeePy.fn_filter names p ↔ t ∈ names ∧ p t = true)
    ∧ (∀ (names : List String) (search : String → Option Nat) (t : String),
        t ∈ SeePy.regex_filter names search ↔ t ∈ names ∧ (search t).isSome = true)
    ∧ (∀ (acts : List String) (p : String → Bool) (search : String → Option Nat),
        SeePy.applyFilters acts (some p) (some search)
          = SeePy.regex_filter (SeePy.fn_filter acts p) search)
    ∧ (∀ (o : PyObject) (u : Bool) (p : String → Bool) (search : String → Option Nat),
        SeePy.see o u (some p) (some search)
          = (SeePy.see o u none none).map
              (fun acts => SeePy.regex_filter (SeePy.fn_filter acts p) search))
    ∧ (∀ (acts : List String) (p : String → Bool) (search : String → Option Nat),
        Inspector.applyFilters acts (some p) (some search)
          = Inspector.filter_regex (Inspector.filter_wildcard acts p) search) := by
  refine ⟨?_, ?_, fun _ _ _ => rfl, ?_, fun _ _ _ => rfl⟩
  · intro names p t
    simp [SeePy.fn_filter, List.mem_filter]
  · intro names search t
    simp [SeePy.regex_filter, List.mem_filter]
  · intro o u p search
    exact SeePy.see_map_filters o u (some p) (some search)

/-- C5: with the target omitted (locals mode) neither implementation runs
capability detection — the result is only the filtered attribute tokens — and
every locals-mode attribute token is the bare attribute name followed by its
suffix, with no member-access separator; with a concrete target every
attribute token carries the leading separator. -/
theorem claim_C5_locals_mode :
    (∀ (o : PyObject) (p : Option (String → Bool)) (r : Option (String → Option Nat)),
        SeePy.see o true p r
          = (SeePy.attrTokens o true).map (fun ts => SeePy.applyFilters ts p r))
    ∧ (∀ (o : PyObject) (ts : List String), SeePy.attrTokens o true = .ok ts →
        ∀ t ∈ ts, ∃ a v, a ∈ o.attrs ∧ startsWithUnderscore a = false
          ∧ o.getattr a = .ok v ∧ t = a ++ SeePy.funcSuffix v)
    ∧ (∀ (o : PyObject) (ts : List String), SeePy.attrTokens o false = .ok ts →
        ∀ t ∈ ts, ∃ a v, a ∈ o.attrs ∧ startsWithUnderscore a = false
          ∧ o.getattr a = .ok v ∧ t = "." ++ a ++ SeePy.funcSuffix v)
    ∧ (∀ (ifuncs : Inspector.InspectFuncs) (feats : List Inspector.Feature) (o : PyObject)
          (p : Option (String → Bool)) (r : Option (String → Option Nat)),
        Inspector.see ifuncs feats o true p r
          = Inspector.applyFilters
              ((o.attrs.filter (fun a => !(startsWithUnderscore a))).map
                (fun a => Inspector.display_name a (Inspector.resolveAttr o a) true)) p r)
    ∧ (∀ (name : String) (robj : Inspector.Resolved),
        Inspector.display_name name robj true = name ++ Inspector.dnSuffix robj)
    ∧ (∀ (name : String) (robj : Inspector.Resolved),
        Inspector.display_name name robj false = "." ++ name ++ Inspector.dnSuffix robj) := by
  refine ⟨?_, ?_, ?_, ?_, ?_, fun _ _ => rfl⟩
  · intro o p r
    unfold SeePy.see
    rw [if_pos rfl]
    cases h2 : SeePy.attrTokens o true with
    | error e => simp [bind, Except.bind, Except.map, pure, Except.pure]
    | ok ts => simp [bind, Except.bind, Except.map, pure, Except.pure]
  · intro o ts h t ht
    have h2 : SeePy.attrLoop o ""
        (o.attrs.filter (fun a => !(startsWithUnderscore a))) = .ok ts := h
    obtain ⟨a, v, haf, hg, heq⟩ := SeePy.attrLoop_mem o "" _ ts h2 t ht
    rw [List.mem_filter] at haf
    refine ⟨a, v, haf.1, by simpa using haf.2, hg, ?_⟩
    rw [heq, String.empty_append]
  · intro o ts h t ht
    have h2 : SeePy.attrLoop o "."
        (o.attrs.filter (fun a => !(startsWithUnderscore a))) = .ok ts := h
    obtain ⟨a, v, haf, hg, heq⟩ := SeePy.attrLoop_mem o "." _ ts h2 t ht
    rw [List.mem_filter] at haf
    exact ⟨a, v, haf.1, by simpa using haf.2, hg, heq⟩
  · intro ifuncs feats o p r
    have h := Inspector.inspector_see_eq ifuncs feats o true p r
    rw [if_pos rfl] at h
    simpa using h
  · intro name robj
    show ("" ++ name) ++ Inspector.dnSuffix robj = _
    rw [String.empty_append]

/-- C5 witness: a concrete object with one callable attribute yields the bare
token in locals mode and the dotted token otherwise. -/
theorem claim_C5_witness :
    (∃ a v, a ∈ exMethObj.attrs ∧ startsWithUnderscore a = false
      ∧ exMethObj.getattr a = .ok v ∧ "m()" = a ++ SeePy.funcSuffix v)
    ∧ (∃ a v, a ∈ exMethObj.attrs ∧ startsWithUnderscore a = false
      ∧ exMethObj.getattr a = .ok v ∧ ".m()" = "." ++ a ++ SeePy.funcSuffix v) :=
  ⟨claim_C5_locals_mode.2.1 exMethObj ["m()"] (by decide) "m()" (by decide),
   claim_C5_locals_mode.2.2.1 exMethObj [".m()"] (by decide) ".m()" (by decide)⟩

/-- C6: every token either is a capability token drawn from the registry
(impossible in locals mode) or is the annotated display of some non-internal
attribute; no token of any other form occurs, in either implementation. -/
theorem claim_C6_token_kinds :
    (∀ (o : PyObject) (u : Bool) (p : Option (String → Bool))
        (r : Option (String → Option Nat)) (toks : List String),
      SeePy.see o u p r = .ok toks →
      ∀ t ∈ toks,
        ((∃ vs ∈ SeePy.SYMBOLS, t = vs.2) ∧ u = false)
        ∨ (∃ a v, a ∈ o.attrs ∧ startsWithUnderscore a = false ∧ o.getattr a = .ok v
            ∧ t = (if u then "" else ".") ++ a ++ SeePy.funcSuffix v))
    ∧ (∀ (ifuncs : Inspector.InspectFuncs) (feats : List Inspector.Feature) (o : PyObject)
        (u : Bool) (p : Option (String → Bool)) (r : Option (String → Option Nat)),
      ∀ t ∈ Inspector.see ifuncs feats o u p r,
        ((t ∈ ifuncs.map Prod.fst ∨ ∃ f ∈ feats, t = f.symbol) ∧ u = false)
        ∨ (∃ a, a ∈ o.attrs ∧ startsWithUnderscore a = false
            ∧ t = Inspector.display_name a (Inspector.resolveAttr o a) u)) := by
  constructor
  · intro o u p r toks h t ht
    rw [SeePy.see_map_filters o u p r] at h
    cases h0 : SeePy.see o u none none with
    | error e =>
      rw [h0] at h
      simp [Except.map] at h
    | ok base =>
      rw [h0] at h
      simp only [Except.map, Except.ok.injEq] at h
      subst h
      have ht2 : t ∈ base := SeePy.applyFilters_subset base p r t ht
      obtain ⟨syms, atoks, h1, h2, rfl⟩ := SeePy.see_ok_unfiltered o u base h0
      rcases List.mem_append.mp ht2 with hs | ha
      · cases u with
        | true =>
          rw [if_pos rfl] at h1
          simp only [Except.ok.injEq] at h1
          rw [← h1] at hs
          cases hs
        | false =>
          rw [if_neg Bool.false_ne_true] at h1
          have hm := (SeePy.symbolsLoop_mem o SeePy.SYMBOLS [] syms h1 t).mp hs
          simp only [List.not_mem_nil, false_or] at hm
          obtain ⟨v, hv, _⟩ := hm
          exact Or.inl ⟨⟨(v, t), hv, rfl⟩, rfl⟩
      · have h2a : SeePy.attrLoop o (if u then "" else ".")
            (o.attrs.filter (fun a => !(startsWithUnderscore a))) = .ok atoks := h2
        obtain ⟨a, v, haf, hg, heq⟩ := SeePy.attrLoop_mem o _ _ atoks h2a t ha
        rw [List.mem_filter] at haf
        exact Or.inr ⟨a, v, haf.1, by simpa using haf.2, hg, heq⟩
  · intro ifuncs feats o u p r t ht
    rw [Inspector.inspector_see_eq] at ht
    have ht2 := Inspector.filters_subset _ p r t ht
    rcases List.mem_append.mp ht2 with hc | ha
    · cases u with
      | true =>
        rw [if_pos rfl] at hc
        cases hc
      | false =>
        rw [if_neg Bool.false_ne_true, Inspector.capTokens_eq] at hc
        rcases List.mem_append.mp hc with h1 | h1
        · refine Or.inl ⟨Or.inl ?_, rfl⟩
          obtain ⟨nf, hnf, rfl⟩ := List.mem_map.mp h1
          exact List.mem_map.mpr ⟨nf, (List.mem_filter.mp hnf).1, rfl⟩
        · refine Or.inl ⟨Or.inr ?_, rfl⟩
          obtain ⟨f, hf, rfl⟩ := List.mem_map.mp h1
          exact ⟨f, (List.mem_filter.mp hf).1, rfl⟩
    · obtain ⟨a, haf, rfl⟩ := List.mem_map.mp ha
      rw [List.mem_filter] at haf
      exact Or.inr ⟨a, haf.1, by simpa using haf.2, rfl⟩

/-- C6 witness: the single token of a concrete inspection is an annotated
attribute display. -/
theorem claim_C6_witness :
    ((∃ vs ∈ SeePy.SYMBOLS, ".m()" = vs.2) ∧ false = false)
    ∨ (∃ a v, a ∈ exMethObj.attrs ∧ startsWithUnderscore a = false
        ∧ exMethObj.getattr a = .ok v
        ∧ ".m()" = (if false then "" else ".") ++ a ++ SeePy.funcSuffix v) :=
  claim_C6_token_kinds.1 exMethObj false none none [".m()"] (by decide) ".m()" (by decide)

/-- C7: the result wrapper behaves exactly as the ordered tuple of the
original unpadded tokens it was constructed from — contents, indexing,
length and equality-by-contents all agree with the plain token list — and
its display representation is computed from those contents alone, leaving
the underlying sequence unchanged (in the model the wrapper is immutable by
construction and the representation functions read only `toList`). -/
theorem claim_C7_result_sequence :
    (∀ l : List String, (SeePy.SeeActions.new (some l)).toList = l)
    ∧ SeePy.SeeActions.new none = SeePy.SeeActions.new (some [])
    ∧ (∀ (l : List String) (i : Nat),
        (SeePy.SeeActions.new (some l)).toList.get? i = l.get? i)
    ∧ (∀ l1 l2 : List String,
        SeePy.SeeActions.new (some l1) = SeePy.SeeActions.new (some l2) ↔ l1 = l2)
    ∧ (∀ (a : SeePy.SeeActions) (fill : String → Nat → String → String),
        SeePy.SeeActionsRepr a fill = fill (String.intercalate "   " a.toList) 78 "  ")
    ∧ (∀ l : List String, (Inspector.SeeResult.new (some l)).toList = l)
    ∧ Inspector.SeeResult.new none = Inspector.SeeResult.new (some [])
    ∧ (∀ l1 l2 : List String,
        Inspector.SeeResult.new (some l1) = Inspector.SeeResult.new (some l2) ↔ l1 = l2)
    ∧ (∀ (a : Inspector.SeeResult) (env : Inspector.Terminal),
        Inspector.SeeResultRepr a env
          = env.fill (Inspector.paddedJoin a.toList (Inspector.column_width a.toList))
              env.lineWidth (Inspector.indentFor env.ps1)) := by
  refine ⟨fun _ => rfl, rfl, fun _ _ => rfl, ?_, fun _ _ => rfl, fun _ => rfl, rfl, ?_,
    fun _ _ => rfl⟩
  · intro l1 l2
    constructor
    · intro h
      exact congrArg SeePy.SeeActions.toList h
    · intro h
      rw [h]
  · intro l1 l2
    constructor
    · intro h
      exact congrArg Inspector.SeeResult.toList h
    · intro h
      rw [h]

/-- C8 (amended): the package renderer computes a column width equal to the
longest token's length plus a fixed padding, pads every token to that width,
joins them, and hands the joined text to the wrapper at the detected line
width, indenting by the length of a non-empty interactive prompt marker and
by the fixed four-space default otherwise; the legacy root-module renderer
instead joins the tokens with a fixed three-space separator and wraps at the
fixed width 78 with a fixed two-space indent, without column padding,
terminal-width detection or prompt-length indentation. -/
theorem claim_C8_renderer_layout :
    (∀ (a : Inspector.SeeResult) (env : Inspector.Terminal),
        Inspector.SeeResultRepr a env
          = env.fill
              (Inspector.paddedJoin a.toList
                (Inspector.maxTokenLen a.toList + Inspector.COLUMN_PADDING))
              env.lineWidth (Inspector.indentFor env.ps1))
    ∧ (∀ (toks : List String) (w : Nat),
        Inspector.paddedJoin toks w
          = String.join (toks.map (fun t => t ++ String.mk (List.replicate (w - t.length) ' '))))
    ∧ Inspector.indentFor none = "    "
    ∧ (∀ p : String, p.length ≠ 0 →
        Inspector.indentFor (some p) = String.mk (List.replicate p.length ' '))
    ∧ (∀ (a : SeePy.SeeActions) (fill : String → Nat → String → String),
        SeePy.SeeActionsRepr a fill = fill (String.intercalate "   " a.toList) 78 "  ") := by
  refine ⟨fun _ _ => rfl, fun _ _ => rfl, rfl, ?_, fun _ _ => rfl⟩
  intro p hp
  show (if p.length = 0 then "    " else String.mk (List.replicate p.length ' ')) = _
  rw [if_neg hp]

/-- C8 witness: a four-character prompt marker yields a four-space indent of
matching length. -/
theorem claim_C8_witness :
    Inspector.indentFor (some ">>> ")
      = String.mk (List.replicate (">>> " : String).length ' ') :=
  claim_C8_renderer_layout.2.2.2.1 ">>> " (by decide)

/-- C8 counterexample: the text the legacy renderer hands to the wrapper is
not a column-padded join — for the tokens `a`, `bb`, `c` no common column
width makes the padded join equal the three-space-separated text. -/
theorem claim_C8_counterexample :
    ¬ Inspector.isPaddedJoinOf
        (SeePy.reprInput (SeePy.SeeActions.new (some ["a", "bb", "c"])))
        ["a", "bb", "c"] := by
  rintro ⟨w, h⟩
  have hl := congrArg (fun s => s.data.length) h
  have e1 : ("a" : String).length = 1 := rfl
  have e2 : ("bb" : String).length = 2 := rfl
  have e3 : ("c" : String).length = 1 := rfl
  simp only [Inspector.paddedJoin, Inspector.justify_token, String.join, List.map,
    List.foldl, String.data_append, List.length_append, e1, e2, e3] at hl
  simp at hl
  have h0 : (SeePy.reprInput (SeePy.SeeActions.new (some ["a", "bb", "c"]))).length = 10 := rfl
  rw [h0] at hl
  omega

/-- C9 (amended): the package implementation's inspection call is a pure
function of its inputs that builds its namespace wrapper fresh from the
caller's locals on every local-scope call, whereas the legacy root module
rebinds the instance dictionary of its module-level `_NO_OBJ` singleton to
the caller's locals on each local-scope call (non-local calls leave it
untouched), so that binding persists after the call returns. -/
theorem claim_C9_no_shared_state :
    (∀ (st : Option (List (String × PyValue))) (o : PyObject)
        (cl : List (String × PyValue)) (p : Option (String → Bool))
        (r : Option (String → Option Nat)),
      (SeePy.seeEntry st (.given o) cl p r).1 = st)
    ∧ (∀ (st : Option (List (String × PyValue))) (cl : List (String × PyValue))
        (p : Option (String → Bool)) (r : Option (String → Option Nat)),
      (SeePy.seeEntry st .omitted cl p r).1 = some cl)
    ∧ (∀ (ifuncs : Inspector.InspectFuncs) (feats : List Inspector.Feature)
        (cl : List (String × PyValue)) (p : Option (String → Bool))
        (r : Option (String → Option Nat)),
      Inspector.seeEntry ifuncs feats .defaultArg cl p r
        = Inspector.see ifuncs feats (SeePy.proxyObject cl) true p r) :=
  ⟨fun _ _ _ _ _ => rfl, fun _ _ _ _ => rfl, fun _ _ _ _ _ => rfl⟩

/-- C9 counterexample: after a local-scope call of the legacy `see`, the
module-level singleton's namespace is no longer what it was before the call
— the caller's locals have been stored in shared module state. -/
theorem claim_C9_counterexample :
    (SeePy.seeEntry none .omitted [("x", ⟨false⟩)] none none).1 = some [("x", ⟨false⟩)]
    ∧ (some [("x", (⟨false⟩ : PyValue))] ≠ (none : Option (List (String × PyValue)))) := by
  exact ⟨rfl, by decide⟩

/-- C10: local-scope inspection happens exactly when the argument is the
module-level default sentinel (the omitted-argument case); every explicitly
given object — however falsy — is inspected itself, with capability
detection, independently of the caller's locals, in both implementations. -/
theorem claim_C10_sentinel_identity :
    (∀ (st : Option (List (String × PyValue))) (o : PyObject)
        (cl cl2 : List (String × PyValue)) (p : Option (String → Bool))
        (r : Option (String → Option Nat)),
      SeePy.seeEntry st (.given o) cl p r = (st, SeePy.see o false p r)
      ∧ SeePy.seeEntry st (.given o) cl p r = SeePy.seeEntry st (.given o) cl2 p r)
    ∧ (∀ (st : Option (List (String × PyValue))) (cl : List (String × PyValue))
        (p : Option (String → Bool)) (r : Option (String → Option Nat)),
      SeePy.seeEntry st .omitted cl p r
        = (some cl, SeePy.see (SeePy.proxyObject cl) true p r))
    ∧ (∀ (ifuncs : Inspector.InspectFuncs) (feats : List Inspector.Feature) (o : PyObject)
        (cl cl2 : List (String × PyValue)) (p : Option (String → Bool))
        (r : Option (String → Option Nat)),
      Inspector.seeEntry ifuncs feats (.given o) cl p r = Inspector.see ifuncs feats o false p r
      ∧ Inspector.seeEntry ifuncs feats (.given o) cl p r
        = Inspector.seeEntry ifuncs feats (.given o) cl2 p r)
    ∧ (∀ (ifuncs : Inspector.InspectFuncs) (feats : List Inspector.Feature)
        (cl : List (String × PyValue)) (p : Option (String → Bool))
        (r : Option (String → Option Nat)),
      Inspector.seeEntry ifuncs feats .defaultArg cl p r
        = Inspector.see ifuncs feats (SeePy.proxyObject cl) true p r) :=
  ⟨fun _ _ _ _ _ _ => ⟨rfl, rfl⟩, fun _ _ _ _ => rfl,
   fun _ _ _ _ _ _ _ => ⟨rfl, rfl⟩, fun _ _ _ _ _ => rfl⟩
